import Mathlib

/-!
# Petgas Portal — verification of the reward/balance bookkeeping and activity submission

Shallow embedding of the data-changing handlers of the Petgas Portal web
application, translated from the page components
(`AssignRewardPage.handleSubmit`, `confirmRevokeReward`,
`handleSubmitPlasticMitigation`, `handleUpdateProfile`,
`confirmDeleteReward`) and from the SQL schema shipped in the repository
(tables `clients`, `rewards`, `client_rewards`, `plastic_mitigation_entries`,
`mitigation_activity_images`).

Modelling conventions:
* JavaScript numbers are modelled as rationals (`ℚ`); the one place where
  `NaN` is observable (the `parseFloat` of the kg input) uses a dedicated
  type `JSNum` with an explicit `nan` constructor.
* Each external write (database insert/update/delete, storage upload) is
  fallible; a handler takes explicit booleans (or an oracle `Nat → Bool`
  for the upload loop) saying which external calls succeed.  The database
  itself is explicit state threaded through the handler.
* Timestamps (`created_at`, `updated_at`, `awarded_at`, the `Date.now()`
  component of upload file names) are omitted: no verified property
  mentions them.
* Storage public URLs are modelled as a wrapper `StorageUrl` around the
  bucket path; `publicUrl` and the handler's string surgery recovering the
  path from the URL are exact inverses in the source (split on
  the bucket name), which the wrapper captures directly.
-/

/-- A JavaScript number as observed by the kg-input validation: either a
finite value or `NaN` (the result of `parseFloat` on a non-numeric string). -/
inductive JSNum where
  | nan : JSNum
  | num (q : ℚ) : JSNum
deriving DecidableEq, Repr

/-- JavaScript comparison `x <= 0`: false for `NaN`. -/
def JSNum.leZero : JSNum → Bool
  | .nan => false
  | .num q => decide (q ≤ 0)

/-- JavaScript test `0 < x`: false for `NaN`. -/
def JSNum.isPos : JSNum → Bool
  | .nan => false
  | .num q => decide (0 < q)

/-- Numeric value of a run of decimal digit characters. -/
def digitsToNat (ds : List Char) : Nat :=
  ds.foldl (fun a c => a * 10 + (c.toNat - 48)) 0

/-- Model of the JavaScript built-in `parseFloat` on the character list of the
input, covering the finite decimal literals an `<input type="number">` field
produces: optional sign, an integer part, an optional fraction; trailing
non-numeric characters are ignored, and if no digit can be consumed the
result is `NaN`.  (The exponent and Infinity forms are not modelled; no
claim depends on them.) -/
def parseFloatCore (cs : List Char) : JSNum :=
  let signed : ℚ × List Char :=
    match cs with
    | '-' :: r => (-1, r)
    | '+' :: r => (1, r)
    | r => (1, r)
  let ip := signed.2.takeWhile Char.isDigit
  let rest := signed.2.dropWhile Char.isDigit
  match rest with
  | '.' :: rest2 =>
      let fp := rest2.takeWhile Char.isDigit
      if ip.isEmpty && fp.isEmpty then .nan
      else .num (signed.1 * ((digitsToNat ip : ℚ) + (digitsToNat fp : ℚ) / (10 ^ fp.length)))
  | _ => if ip.isEmpty then .nan else .num (signed.1 * (digitsToNat ip : ℚ))

/-- Model of `parseFloat` on a string (leading spaces skipped, as in JS). -/
def parseFloat (s : String) : JSNum :=
  parseFloatCore (s.data.dropWhile (fun c => c == ' '))

/-- A public URL of an object in the `mitigation-images` bucket.  The source
computes the URL with `getPublicUrl(path)` and recovers `path` back from the
URL by splitting on the bucket name; the two are exact inverses, so the URL
is modelled as the path it wraps. -/
structure StorageUrl where
  path : String
deriving DecidableEq, Repr

/-- `supabase.storage.from('mitigation-images').getPublicUrl`. -/
def publicUrl (p : String) : StorageUrl := ⟨p⟩

/-- The handler's recovery of the bucket path from a public URL
(`parts.slice(parts.indexOf('mitigation-images') + 1).join('/')`). -/
def extractPath (u : StorageUrl) : String := u.path

/-- A row of the `clients` table (timestamps omitted).  `pgc_balance` is
nullable in the schema (`NUMERIC DEFAULT 0`), hence `Option ℚ`; the handlers
read it with `client.pgc_balance || 0`. -/
structure ClientRow where
  id : String
  email : String
  full_name : Option String
  solana_wallet : Option String
  bnb_wallet : Option String
  pgc_balance : Option ℚ
deriving DecidableEq, Repr

/-- A row of the `rewards` table (reward definition; criteria and
description omitted — no verified property mentions them). -/
structure RewardRow where
  id : String
  name : String
  pgc_amount : ℚ
deriving DecidableEq, Repr

/-- A row of the `client_rewards` table (the reward ledger). -/
structure ClientRewardRow where
  id : String
  client_id : String
  reward_id : String
  notes : Option String
deriving DecidableEq, Repr

/-- A row of the `plastic_mitigation_entries` table.  The kg amount is a
`JSNum` because the handler inserts `parseFloat(mitigatedPlasticKg)`
unchecked, which can be `NaN`. -/
structure MitigationRow where
  id : String
  client_id : String
  mitigated_plastic_kg : JSNum
deriving DecidableEq, Repr

/-- A row of the `mitigation_activity_images` table. -/
structure ImageRow where
  entry_id : String
  image_url : StorageUrl
deriving DecidableEq, Repr

/-- The externally stored state the handlers read and write: the five
relevant tables plus the set of paths present in the `mitigation-images`
storage bucket. -/
structure DB where
  clients : List ClientRow
  rewards : List RewardRow
  client_rewards : List ClientRewardRow
  mitigation_entries : List MitigationRow
  mitigation_images : List ImageRow
  storage : List String
deriving DecidableEq, Repr

/-- `.from('clients').select().eq('id', cid).single()` — first row matching. -/
def findClient (db : DB) (cid : String) : Option ClientRow :=
  db.clients.find? (fun c => c.id == cid)

/-- Lookup of a reward definition by id. -/
def findReward (db : DB) (rid : String) : Option RewardRow :=
  db.rewards.find? (fun r => r.id == rid)

/-- `.from('clients').update({ pgc_balance := nb }).eq('id', cid)`. -/
def updateClientBalance (db : DB) (cid : String) (nb : ℚ) : DB :=
  { db with clients := db.clients.map (fun c =>
      if c.id == cid then { c with pgc_balance := some nb } else c) }

/-- Outcome of `AssignRewardPage.handleSubmit`, one constructor per distinct
exit of the source: the early return when no client/reward is selected, the
throw after the `client_rewards` insert fails, the throw after the insert
succeeded but the balance update failed (the source logs
"Client reward was logged, but balance not updated" and asks for manual
verification — the partial-failure case), and success. -/
inductive AssignOutcome where
  | noSelection : AssignOutcome
  | insertFailed : AssignOutcome
  | balanceWriteFailed : AssignOutcome
  | ok : AssignOutcome
deriving DecidableEq, Repr

/-- `AssignRewardPage.handleSubmit` composed with the page-load fetch that
produced the `selectedClient` / `selectedReward` options: the client's
balance snapshot and the reward's point value are read from the database,
then one `client_rewards` row is inserted, then the client's balance is
written to snapshot + value.  `newId` is the UUID the database generates for
the inserted row (the insert fails on a primary-key conflict); `insertOk`
and `updateOk` say whether the two external writes succeed. -/
def assignReward (db : DB) (cid rid : String) (notes : String) (newId : String)
    (insertOk updateOk : Bool) : DB × AssignOutcome :=
  match findClient db cid, findReward db rid with
  | some c, some r =>
    if insertOk && db.client_rewards.all (fun e => e.id != newId) then
      let row : ClientRewardRow :=
        { id := newId, client_id := cid, reward_id := rid
          notes := if notes.isEmpty then none else some notes }
      let db1 := { db with client_rewards := db.client_rewards ++ [row] }
      if updateOk then
        let nb := c.pgc_balance.getD 0 + r.pgc_amount
        (updateClientBalance db1 cid nb, .ok)
      else
        (db1, .balanceWriteFailed)
    else
      (db, .insertFailed)
  | _, _ => (db, .noSelection)

/-- `AssignRewardPage.handleSubmit` proper, with the React-state session
snapshots made explicit: the handler's closure reads
`selectedClient.current_pgc_balance` (`balanceSnap`) and
`selectedReward.pgc_amount` (`amountSnap`) from the options built by the
page-load fetch — NOT from the database at submit time — inserts one
`client_rewards` row, then writes balance = balanceSnap + amountSnap.
After a successful submission the source only clears the selection; it
does not re-fetch the clients list (its own comment says a re-fetch would
be needed), so a second submission in the same page session runs with the
same, now stale, `balanceSnap`.  `assignReward` above is this handler with
the snapshots taken from a fresh fetch, i.e. the first submission of a
session. -/
def handleSubmitAssign (db : DB) (cid : String) (balanceSnap : Option ℚ)
    (rid : String) (amountSnap : ℚ) (notes : String) (newId : String)
    (insertOk updateOk : Bool) : DB × AssignOutcome :=
  if insertOk && db.client_rewards.all (fun e => e.id != newId) then
    let row : ClientRewardRow :=
      { id := newId, client_id := cid, reward_id := rid
        notes := if notes.isEmpty then none else some notes }
    let db1 := { db with client_rewards := db.client_rewards ++ [row] }
    if updateOk then
      let nb := balanceSnap.getD 0 + amountSnap
      (updateClientBalance db1 cid nb, .ok)
    else
      (db1, .balanceWriteFailed)
  else
    (db, .insertFailed)

/-- Outcome of `confirmRevokeReward`, one constructor per distinct exit of
the source: the throw when the `client_rewards` delete fails, the throw when
the delete succeeded but the balance update failed (the source logs
"CRITICAL: Reward entry deleted but failed to update PGC balance" — the
partial-failure case), and success. -/
inductive RevokeOutcome where
  | deleteFailed : RevokeOutcome
  | balanceWriteFailed : RevokeOutcome
  | ok : RevokeOutcome
deriving DecidableEq, Repr

/-- `confirmRevokeReward`: deletes the ledger row with the given id, then
writes the client's balance to `max 0 (B - V)`, where `B` is the balance of
the in-session client snapshot (`client.pgc_balance || 0`) and `V` the
`rewards.pgc_amount` joined into the in-session reward snapshot
(`clientRewardToRevoke.rewards.pgc_amount`).  The delete succeeds even when
no row matches the id. -/
def confirmRevokeReward (db : DB) (cid : String) (balanceSnap : Option ℚ)
    (entryId : String) (amountSnap : ℚ) (deleteOk updateOk : Bool) :
    DB × RevokeOutcome :=
  if deleteOk then
    let db1 := { db with client_rewards :=
        db.client_rewards.filter (fun e => e.id != entryId) }
    if updateOk then
      let nb := max 0 (balanceSnap.getD 0 - amountSnap)
      (updateClientBalance db1 cid nb, .ok)
    else
      (db1, .balanceWriteFailed)
  else
    (db, .deleteFailed)

/-- Outcome of `confirmDeleteReward`: the reward delete either violates the
`client_rewards.reward_id REFERENCES rewards(id) ON DELETE RESTRICT`
constraint of the schema (surfaced as an error the handler catches and
reports, leaving everything in place), or succeeds. -/
inductive DeleteRewardOutcome where
  | conflictError : DeleteRewardOutcome
  | ok : DeleteRewardOutcome
deriving DecidableEq, Repr

/-- `confirmDeleteReward` over the schema's foreign-key semantics: the
`DELETE FROM rewards WHERE id = rid` fails with a restrict violation when
any `client_rewards` row references `rid` (nothing is removed, no cascade),
and otherwise removes exactly the rows with that id. -/
def confirmDeleteReward (db : DB) (rid : String) : DB × DeleteRewardOutcome :=
  if db.client_rewards.any (fun e => e.reward_id == rid) then
    (db, .conflictError)
  else
    ({ db with rewards := db.rewards.filter (fun r => r.id != rid) }, .ok)

/-- Outcome of `handleSubmitPlasticMitigation`, one constructor per distinct
exit of the source: the early return on the kg validation, the throw inside
the upload loop (no cleanup on this path), the throw after the
`plastic_mitigation_entries` insert failed (after which the already uploaded
files ARE removed from storage), the throw after the image-rows insert
failed (the entry remains), and success. -/
inductive SubmitOutcome where
  | validationFailed : SubmitOutcome
  | uploadFailed : SubmitOutcome
  | entryInsertFailed : SubmitOutcome
  | imageInsertFailed : SubmitOutcome
  | ok : SubmitOutcome
deriving DecidableEq, Repr

/-- The upload loop of `handleSubmitPlasticMitigation`: files are uploaded
one by one under paths namespaced by the client id; on the first failing
upload the loop throws, leaving the files uploaded so far in storage and
returning no URL list.  `ok i` says whether the upload of the i-th file
succeeds. -/
def uploadLoop (db : DB) (uid : String) (files : List String) (ok : Nat → Bool)
    (i : Nat) : DB × Option (List StorageUrl) :=
  match files with
  | [] => (db, some [])
  | f :: rest =>
    if ok i then
      let path := uid ++ "/" ++ f
      let db1 := { db with storage := db.storage ++ [path] }
      match uploadLoop db1 uid rest ok (i + 1) with
      | (db2, some urls) => (db2, some (publicUrl path :: urls))
      | (db2, none) => (db2, none)
    else
      (db, none)

/-- `handleSubmitPlasticMitigation` on the logged-in path: validates the raw
kg string with `!kgStr || parseFloat(kgStr) <= 0`, uploads the images, then
inserts one `plastic_mitigation_entries` row carrying `parseFloat(kgStr)`,
then inserts one `mitigation_activity_images` row per uploaded image.  If
the entry insert fails the uploaded files are deleted from storage (the
compensating cleanup of the source); if an upload fails the handler throws
with no cleanup.  `newEntryId` is the UUID the database generates for the
entry. -/
def submitMitigation (db : DB) (uid : String) (kgStr : String)
    (files : List String) (upOk : Nat → Bool) (entryOk imagesOk : Bool)
    (newEntryId : String) : DB × SubmitOutcome :=
  if kgStr.isEmpty || (parseFloat kgStr).leZero then
    (db, .validationFailed)
  else
    match uploadLoop db uid files upOk 0 with
    | (db1, none) => (db1, .uploadFailed)
    | (db1, some urls) =>
      if entryOk then
        let row : MitigationRow :=
          { id := newEntryId, client_id := uid
            mitigated_plastic_kg := parseFloat kgStr }
        let db2 := { db1 with mitigation_entries := db1.mitigation_entries ++ [row] }
        if urls.isEmpty then
          (db2, .ok)
        else if imagesOk then
          let imgs := urls.map (fun u => ImageRow.mk newEntryId u)
          ({ db2 with mitigation_images := db2.mitigation_images ++ imgs }, .ok)
        else
          (db2, .imageInsertFailed)
      else
        let paths := urls.map extractPath
        ({ db1 with storage := db1.storage.filter (fun p => !(paths.contains p)) },
          .entryInsertFailed)

/-- Outcome of `handleUpdateProfile` on the logged-in path: the upsert
either fails (network/database error, state unchanged) or succeeds. -/
inductive ProfileOutcome where
  | upsertFailed : ProfileOutcome
  | ok : ProfileOutcome
deriving DecidableEq, Repr

/-- The column values `handleUpdateProfile` supplies to the upsert, applied
to an existing `clients` row. -/
def applyProfileColumns (emailSnap fullName solana bnb : String)
    (c : ClientRow) : ClientRow :=
  { c with
    full_name := some fullName
    solana_wallet := some solana
    bnb_wallet := some bnb
    email := emailSnap }

/-- The fresh `clients` row the upsert inserts when no row has the id
(`pgc_balance` at its schema default of 0). -/
def freshProfileRow (uid emailSnap fullName solana bnb : String) : ClientRow :=
  { id := uid
    email := emailSnap
    full_name := some fullName
    solana_wallet := some solana
    bnb_wallet := some bnb
    pgc_balance := some 0 }

/-- `handleUpdateProfile`: upserts into `clients` keyed on `id`
(`onConflict: 'id'`) the columns display name, the two wallets, and `email`
taken from the in-session profile snapshot.  When a row with the id exists,
the supplied columns are overwritten and every other column (in particular
`pgc_balance`) keeps its value; when none exists a new row is inserted,
with `pgc_balance` at its schema default. -/
def handleUpdateProfile (db : DB) (uid emailSnap fullName solana bnb : String)
    (upsertOk : Bool) : DB × ProfileOutcome :=
  if upsertOk then
    if db.clients.any (fun c => c.id == uid) then
      ({ db with clients := db.clients.map (fun c =>
          if c.id == uid then applyProfileColumns emailSnap fullName solana bnb c
          else c) }, .ok)
    else
      ({ db with clients := db.clients ++
          [freshProfileRow uid emailSnap fullName solana bnb] }, .ok)
  else
    (db, .upsertFailed)

/-- One admin action on the reward ledger, at the level the UI exposes:
assigning a reward to a client, or revoking one of the ledger entries shown
on the freshly loaded client-details page. -/
inductive Op where
  | assign (cid rid notes newId : String) : Op
  | revoke (cid eid : String) : Op
deriving DecidableEq, Repr

/-- Runs one fully successful ledger operation under the one-operation-per-
page-session discipline: every external write succeeds and the page state
is freshly fetched before the action, so an assignment goes through
`assignReward` (= `handleSubmitAssign` with the snapshots read at op time)
and a revocation first re-reads the client and the ledger entry (with its
joined reward) exactly as `fetchAllClientData` does, then goes through
`confirmRevokeReward`.  This freshness is a real restriction for
assignments: `AssignRewardPage` does not refresh its balance snapshot
after an assignment, so a second submission in the SAME session runs
`handleSubmitAssign` on a stale snapshot — a flow `runOp` does not cover,
and on which the balance/ledger invariant fails.  Revocations are covered even
repeated in-session, because the details page stores the updated client
row after each revoke.  Returns `none` when the operation does not
complete successfully. -/
def runOp (db : DB) : Op → Option DB
  | .assign cid rid notes newId =>
    match assignReward db cid rid notes newId true true with
    | (db1, .ok) => some db1
    | _ => none
  | .revoke cid eid =>
    match findClient db cid,
        db.client_rewards.find? (fun e => e.id == eid && e.client_id == cid) with
    | some c, some e =>
      match findReward db e.reward_id with
      | some r =>
        match confirmRevokeReward db cid c.pgc_balance eid r.pgc_amount true true with
        | (db1, .ok) => some db1
        | _ => none
      | none => none
    | _, _ => none

/-- Runs a sequence of fully successful ledger operations. -/
def runOps (db : DB) : List Op → Option DB
  | [] => some db
  | op :: rest =>
    match runOp db op with
    | some db1 => runOps db1 rest
    | none => none

/-- The point value a ledger entry contributes: the `pgc_amount` of the
reward definition it references (0 if the definition is absent, which the
restrict foreign key rules out). -/
def entryValue (rws : List RewardRow) (e : ClientRewardRow) : ℚ :=
  match rws.find? (fun r => r.id == e.reward_id) with
  | some r => r.pgc_amount
  | none => 0

/-- Sum of the point values of the ledger entries a client currently holds. -/
def ledgerSum (rws : List RewardRow) (entries : List ClientRewardRow)
    (cid : String) : ℚ :=
  (entries.map (fun e => if e.client_id == cid then entryValue rws e else 0)).sum

/-- The one true invariant of the system: every client's stored balance
equals the sum of the point values of the ledger entries it holds, and the
ledger's primary keys are distinct. -/
def LedgerInv (db : DB) : Prop :=
  (db.client_rewards.map (fun e => e.id)).Nodup ∧
  ∀ c ∈ db.clients, c.pgc_balance.getD 0 = ledgerSum db.rewards db.client_rewards c.id

theorem ledgerSum_nil (rws : List RewardRow) (cid : String) :
    ledgerSum rws [] cid = 0 := rfl

theorem ledgerSum_cons (rws : List RewardRow) (a : ClientRewardRow)
    (t : List ClientRewardRow) (cid : String) :
    ledgerSum rws (a :: t) cid
      = (if a.client_id == cid then entryValue rws a else 0) + ledgerSum rws t cid := by
  simp [ledgerSum]

theorem ledgerSum_append_single (rws : List RewardRow) (l : List ClientRewardRow)
    (e : ClientRewardRow) (cid : String) :
    ledgerSum rws (l ++ [e]) cid
      = ledgerSum rws l cid + (if e.client_id == cid then entryValue rws e else 0) := by
  simp [ledgerSum]

theorem entryValue_nonneg (rws : List RewardRow)
    (hrw : ∀ r ∈ rws, 0 < r.pgc_amount) (e : ClientRewardRow) :
    0 ≤ entryValue rws e := by
  unfold entryValue
  cases hfind : rws.find? (fun r => r.id == e.reward_id) with
  | none => simp
  | some r => exact le_of_lt (hrw r (List.mem_of_find?_eq_some hfind))

theorem ledgerSum_nonneg (rws : List RewardRow) (l : List ClientRewardRow)
    (cid : String) (hrw : ∀ r ∈ rws, 0 < r.pgc_amount) :
    0 ≤ ledgerSum rws l cid := by
  apply List.sum_nonneg
  intro x hx
  obtain ⟨e, _, rfl⟩ := List.mem_map.1 hx
  by_cases h : e.client_id == cid
  · simpa [h] using entryValue_nonneg rws hrw e
  · simp [h]

theorem ledgerSum_filter_erase (rws : List RewardRow) (l : List ClientRewardRow)
    (e : ClientRewardRow) (hmem : e ∈ l)
    (hnd : (l.map (fun x => x.id)).Nodup) (cid : String) :
    ledgerSum rws (l.filter (fun x => x.id != e.id)) cid
      = ledgerSum rws l cid - (if e.client_id == cid then entryValue rws e else 0) := by
  induction l with
  | nil => cases hmem
  | cons a t ih =>
    simp only [List.map_cons, List.nodup_cons] at hnd
    rcases List.mem_cons.1 hmem with rfl | hmem2
    · have hfilter : t.filter (fun x => x.id != e.id) = t := by
        apply List.filter_eq_self.2
        intro x hx
        exact bne_iff_ne.2 fun hxe => hnd.1 (hxe ▸ List.mem_map_of_mem (fun y => y.id) hx)
      simp [List.filter_cons, hfilter, ledgerSum_cons]
    · have hane : a.id ≠ e.id := by
        intro hae
        exact hnd.1 (hae ▸ List.mem_map_of_mem (fun y => y.id) hmem2)
      have hkeep : (a.id != e.id) = true := bne_iff_ne.2 hane
      simp only [List.filter_cons, hkeep, if_true, ledgerSum_cons,
        ih hmem2 hnd.2]
      ring


theorem findClient_id (db : DB) (cid : String) (c : ClientRow)
    (h : findClient db cid = some c) : c.id = cid := by
  unfold findClient at h
  have hp := List.find?_some h
  exact eq_of_beq hp

theorem runOp_preserves (db db1 : DB) (op : Op)
    (hrw : ∀ r ∈ db.rewards, 0 < r.pgc_amount)
    (hinv : LedgerInv db)
    (h : runOp db op = some db1) :
    db1.rewards = db.rewards ∧ LedgerInv db1 := by
  obtain ⟨hnd, hbal⟩ := hinv
  cases op with
  | assign cid rid notes newId =>
    simp only [runOp] at h
    unfold assignReward at h
    split at h
    case _ =>
      rename_i x db2 heq
      simp only [Option.some.injEq] at h
      subst h
      split at heq
      case _ =>
        rename_i xa xb c r hc hr
        split at heq
        case _ =>
          rename_i hcond
          simp only [if_true, Prod.mk.injEq, and_true] at heq
          subst heq
          rw [Bool.true_and] at hcond
          have hall : db.client_rewards.all (fun e => e.id != newId) = true := hcond
          have hcmem : c ∈ db.clients := List.mem_of_find?_eq_some hc
          have hcid : c.id = cid := findClient_id db cid c hc
          refine ⟨rfl, ?_, ?_⟩
          · simp only [updateClientBalance, List.map_append, List.nodup_append]
            refine ⟨hnd, List.nodup_singleton _, ?_⟩
            intro a ha hb
            obtain ⟨e, hemem, rfl⟩ := List.mem_map.1 ha
            have hfr : (e.id != newId) = true := List.all_eq_true.1 hall e hemem
            exact absurd (by simpa using hb) (bne_iff_ne.1 hfr)
          · intro c1 hc1
            simp only [updateClientBalance] at hc1
            obtain ⟨c0, hc0, rfl⟩ := List.mem_map.1 hc1
            have hrowval : ∀ ns, entryValue db.rewards
                (ClientRewardRow.mk newId cid rid ns) = r.pgc_amount := by
              intro ns
              unfold entryValue
              rw [show db.rewards.find?
                  (fun r0 => r0.id == (ClientRewardRow.mk newId cid rid ns).reward_id)
                  = findReward db rid from rfl, hr]
            rw [hbal c hcmem, hcid]
            by_cases h0 : (c0.id == cid) = true
            · have hc0id : c0.id = cid := eq_of_beq h0
              simp [updateClientBalance, h0, hc0id, hrowval, ledgerSum_append_single]
            · have h0f : (c0.id == cid) = false := by simpa using h0
              have hne : cid ≠ c0.id := fun hh =>
                absurd (beq_iff_eq.2 hh.symm) (by simp [h0f])
              have hne2 : (cid == c0.id) = false := beq_eq_false_iff_ne.2 hne
              simp only [updateClientBalance, List.mem_map, h0f,
                Bool.false_eq_true, if_false]
              rw [hbal c0 hc0]
              simp [ledgerSum_append_single, hne2]
        case _ =>
          rename_i hcond
          simp at heq
      case _ =>
        rename_i xa xb hno
        simp at heq
    case _ =>
      rename_i x hne
      simp at h
  | revoke cid eid =>
    simp only [runOp] at h
    split at h
    case _ =>
      rename_i xa xb c e hc he
      split at h
      case _ =>
        rename_i xr r hr
        unfold confirmRevokeReward at h
        simp only [if_true, Option.some.injEq] at h
        subst h
        have hcmem : c ∈ db.clients := List.mem_of_find?_eq_some hc
        have hcid : c.id = cid := findClient_id db cid c hc
        have hemem : e ∈ db.client_rewards := List.mem_of_find?_eq_some he
        have hepred := List.find?_some he
        simp only [Bool.and_eq_true] at hepred
        have heid : e.id = eid := eq_of_beq hepred.1
        have hecid : e.client_id = cid := eq_of_beq hepred.2
        have hvale : entryValue db.rewards e = r.pgc_amount := by
          unfold entryValue
          rw [show db.rewards.find? (fun r0 => r0.id == e.reward_id)
              = findReward db e.reward_id from rfl, hr]
        subst heid
        have hfilter := ledgerSum_filter_erase db.rewards db.client_rewards e hemem hnd
        have hfnonneg : 0 ≤ ledgerSum db.rewards
            (db.client_rewards.filter (fun x0 => x0.id != e.id)) cid :=
          ledgerSum_nonneg _ _ _ hrw
        refine ⟨rfl, ?_, ?_⟩
        · simp only [updateClientBalance]
          exact hnd.sublist (List.Sublist.map _ (List.filter_sublist _))
        · intro c1 hc1
          simp only [updateClientBalance] at hc1
          obtain ⟨c0, hc0, rfl⟩ := List.mem_map.1 hc1
          have hBV : c.pgc_balance.getD 0 - r.pgc_amount
              = ledgerSum db.rewards
                (db.client_rewards.filter (fun x0 => x0.id != e.id)) cid := by
            rw [hfilter cid, hbal c hcmem, hcid, hecid, hvale]
            simp
          rw [hBV, max_eq_right hfnonneg]
          by_cases h0 : (c0.id == cid) = true
          · have hc0id : c0.id = cid := eq_of_beq h0
            simp [updateClientBalance, h0, hc0id]
          · have h0f : (c0.id == cid) = false := by simpa using h0
            have hne : e.client_id ≠ c0.id := by
              rw [hecid]
              exact fun hh => absurd (beq_iff_eq.2 hh.symm) (by simp [h0f])
            simp only [updateClientBalance, h0f, Bool.false_eq_true, if_false]
            rw [hbal c0 hc0, hfilter c0.id]
            simp [beq_eq_false_iff_ne.2 hne]
      case _ =>
        rename_i hno
        simp at h
    case _ =>
      rename_i xa xb hno
      simp at h

theorem runOps_preserves (ops : List Op) :
    ∀ db db1 : DB, (∀ r ∈ db.rewards, 0 < r.pgc_amount) → LedgerInv db →
      runOps db ops = some db1 →
      db1.rewards = db.rewards ∧ LedgerInv db1 := by
  induction ops with
  | nil =>
    intro db db1 hrw hinv h
    simp only [runOps, Option.some.injEq] at h
    subst h
    exact ⟨rfl, hinv⟩
  | cons op rest ih =>
    intro db db1 hrw hinv h
    simp only [runOps] at h
    cases hop : runOp db op with
    | none => rw [hop] at h; simp at h
    | some db2 =>
      rw [hop] at h
      obtain ⟨hrew2, hinv2⟩ := runOp_preserves db db2 op hrw hinv hop
      obtain ⟨hrew3, hinv3⟩ := ih db2 db1 (hrew2.symm ▸ hrw) hinv2 h
      exact ⟨hrew3.trans hrew2, hinv3⟩

theorem string_empty_isEmpty : ("" : String).isEmpty = true := rfl

theorem string_five_not_empty : ("5" : String).isEmpty = false := rfl

theorem string_zero_not_empty : ("0" : String).isEmpty = false := rfl

theorem string_abc_not_empty : ("abc" : String).isEmpty = false := rfl

/-- First projection of the upload loop on a non-empty file list: the state
after the loop is the state after uploading the head (when its upload
succeeds) threaded through the rest of the loop. -/
theorem uploadLoop_fst (db : DB) (uid f : String) (rest : List String)
    (ok : Nat → Bool) (i : Nat) :
    (uploadLoop db uid (f :: rest) ok i).1
      = if ok i then
          (uploadLoop { db with storage := db.storage ++ [uid ++ "/" ++ f] }
            uid rest ok (i + 1)).1
        else db := by
  by_cases h : ok i = true
  · rcases hrec : uploadLoop { db with storage := db.storage ++ [uid ++ "/" ++ f] }
        uid rest ok (i + 1) with ⟨db2, r⟩
    cases r <;> simp [uploadLoop, h, hrec]
  · simp [uploadLoop, h]

/-- The upload loop only ever touches the storage bucket, and only by
appending: every table is unchanged and the starting storage is a prefix of
the final storage. -/
theorem uploadLoop_fields (uid : String) (files : List String) (ok : Nat → Bool) :
    ∀ (db : DB) (i : Nat),
      (uploadLoop db uid files ok i).1.clients = db.clients ∧
      (uploadLoop db uid files ok i).1.rewards = db.rewards ∧
      (uploadLoop db uid files ok i).1.client_rewards = db.client_rewards ∧
      (uploadLoop db uid files ok i).1.mitigation_entries = db.mitigation_entries ∧
      (uploadLoop db uid files ok i).1.mitigation_images = db.mitigation_images ∧
      List.IsPrefix db.storage (uploadLoop db uid files ok i).1.storage := by
  induction files with
  | nil => intro db i; simp [uploadLoop]
  | cons f rest ih =>
    intro db i
    rw [uploadLoop_fst]
    by_cases h : ok i = true
    · simp only [h, if_true]
      obtain ⟨h1, h2, h3, h4, h5, h6⟩ :=
        ih { db with storage := db.storage ++ [uid ++ "/" ++ f] } (i + 1)
      exact ⟨h1, h2, h3, h4, h5, List.IsPrefix.trans ⟨[uid ++ "/" ++ f], rfl⟩ h6⟩
    · simp only [h, Bool.false_eq_true, if_false]
      refine ⟨by trivial, by trivial, by trivial, by trivial, by trivial, [], by simp⟩

/-- An initial state for the scenarios: one client with a zero balance, a
30-point and a 50-point reward definition, no ledger entries, nothing else. -/
def dbZero : DB :=
  { clients := [ClientRow.mk "c1" "a@b" none none none (some 0)]
    rewards := [RewardRow.mk "r1" "A" 30, RewardRow.mk "r2" "B" 50]
    client_rewards := []
    mitigation_entries := []
    mitigation_images := []
    storage := [] }

/-- The state reached from `dbZero` by assigning both rewards and revoking
the first: balance 50, one ledger entry for the 50-point reward. -/
def dbAfter : DB :=
  { clients := [ClientRow.mk "c1" "a@b" none none none (some 50)]
    rewards := [RewardRow.mk "r1" "A" 30, RewardRow.mk "r2" "B" 50]
    client_rewards := [ClientRewardRow.mk "e2" "c1" "r2" none]
    mitigation_entries := []
    mitigation_images := []
    storage := [] }

/-- A state with one client holding balance 10 and an empty reward ledger
(the ledger entry `e1` has already been removed). -/
def dbRev : DB :=
  { clients := [ClientRow.mk "c1" "a@b" none none none (some 10)]
    rewards := [RewardRow.mk "r1" "A" 30]
    client_rewards := []
    mitigation_entries := []
    mitigation_images := []
    storage := [] }

/-- The empty state. -/
def dbE : DB :=
  { clients := [], rewards := [], client_rewards := [],
    mitigation_entries := [], mitigation_images := [], storage := [] }

/-- `assignReward` is exactly `handleSubmitAssign` run on the snapshots a
fresh page-load fetch produces: the two definitions embed the same handler
body, differing only in where the balance/value snapshots come from. -/
theorem assignReward_eq_fetch_then_submit (db : DB) (cid rid notes newId : String)
    (insertOk updateOk : Bool) :
    assignReward db cid rid notes newId insertOk updateOk
      = match findClient db cid, findReward db rid with
        | some c, some r =>
          handleSubmitAssign db cid c.pgc_balance rid r.pgc_amount notes newId
            insertOk updateOk
        | _, _ => (db, .noSelection) := rfl

/-- The state after the first submission of an `AssignRewardPage` session
loaded over `dbZero`: the 30-point reward assigned using the page-load
balance snapshot `some 0`. -/
def dbStaleMid : DB :=
  (handleSubmitAssign dbZero "c1" (some 0) "r1" 30 "" "e1" true true).1

/-- The state after a second, fully successful submission in the SAME
session: the 50-point reward assigned still using the page-load snapshot
`some 0`, which is now stale. -/
def dbStaleEnd : DB :=
  (handleSubmitAssign dbStaleMid "c1" (some 0) "r2" 50 "" "e2" true true).1

/-- C1 counterexample: a sequence of two fully successful assignReward
operations (no partial failure) from a zero balance after which the stored
balance does NOT equal the ledger sum.  Both submissions happen in one
`AssignRewardPage` session: the page-load fetch reads balance 0 and the
reward values 30 and 50, the first submission writes 0 + 30 = 30, and the
second — the source never refreshes `current_pgc_balance` after an
assignment — reuses the stale snapshot 0 and writes 0 + 50 = 50, while
the client now holds ledger entries worth 30 + 50 = 80. -/
theorem c1_stale_snapshot_counterexample :
    findClient dbZero "c1" = some (ClientRow.mk "c1" "a@b" none none none (some 0)) ∧
    findReward dbZero "r1" = some (RewardRow.mk "r1" "A" 30) ∧
    findReward dbZero "r2" = some (RewardRow.mk "r2" "B" 50) ∧
    (handleSubmitAssign dbZero "c1" (some 0) "r1" 30 "" "e1" true true).2
      = AssignOutcome.ok ∧
    (handleSubmitAssign dbStaleMid "c1" (some 0) "r2" 50 "" "e2" true true).2
      = AssignOutcome.ok ∧
    dbStaleEnd.clients.map (fun c => c.pgc_balance) = [some 50] ∧
    ledgerSum dbStaleEnd.rewards dbStaleEnd.client_rewards "c1" = 80 ∧
    (50 : ℚ) ≠ 80 := by
  refine ⟨rfl, rfl, rfl, ?_, ?_, ?_, ?_, by norm_num⟩
  · simp [handleSubmitAssign, dbZero]
  · simp [handleSubmitAssign, dbStaleMid, dbZero, updateClientBalance]
  · simp [dbStaleEnd, dbStaleMid, dbZero, handleSubmitAssign, updateClientBalance]
  · simp [dbStaleEnd, dbStaleMid, dbZero, handleSubmitAssign, updateClientBalance,
      ledgerSum, entryValue, List.find?]
    norm_num

/-- C1 as amended: for every client starting from a zero point balance (and
an empty reward ledger), after any sequence of fully successful assignReward
and revokeReward operations in which every operation acts on a freshly read
balance — one assignment per load of the assign page, since
`AssignRewardPage` never refreshes its balance snapshot after an
assignment — the client's stored point balance equals the sum of the point
values of the ledger entries the client currently holds.  (Without the
per-operation fresh read the equality fails: two successful assignments in
one page session reuse the stale snapshot.)  The reward catalog is assumed
to satisfy its schema constraint `pgc_amount > 0`. -/
theorem c1_balance_equals_ledger_sum (db db1 : DB) (ops : List Op)
    (hrw : ∀ r ∈ db.rewards, 0 < r.pgc_amount)
    (hstart : db.client_rewards = [] ∧ ∀ c ∈ db.clients, c.pgc_balance.getD 0 = 0)
    (hrun : runOps db ops = some db1) :
    ∀ c ∈ db1.clients, c.pgc_balance.getD 0
      = ledgerSum db1.rewards db1.client_rewards c.id := by
  have hinv : LedgerInv db := by
    obtain ⟨h1, h2⟩ := hstart
    constructor
    · rw [h1]; exact List.nodup_nil
    · intro c hc
      rw [h2 c hc, h1, ledgerSum_nil]
  exact (runOps_preserves ops db db1 hrw hinv hrun).2.2

theorem c1_balance_equals_ledger_sum_witness :
    runOps dbZero [Op.assign "c1" "r1" "" "e1", Op.assign "c1" "r2" "" "e2",
      Op.revoke "c1" "e1"] = some dbAfter ∧
    (∀ c ∈ dbAfter.clients, c.pgc_balance.getD 0
      = ledgerSum dbAfter.rewards dbAfter.client_rewards c.id) := by
  have hrun : runOps dbZero [Op.assign "c1" "r1" "" "e1", Op.assign "c1" "r2" "" "e2",
      Op.revoke "c1" "e1"] = some dbAfter := by
    simp [runOps, runOp, assignReward, findClient, findReward, updateClientBalance,
      confirmRevokeReward, dbZero, dbAfter, List.find?, List.all, List.filter,
      string_empty_isEmpty]
  refine ⟨hrun, c1_balance_equals_ledger_sum dbZero dbAfter _ ?_ ?_ hrun⟩
  · norm_num [dbZero]
  · simp [dbZero]

/-- C2: for assignReward (and symmetrically revokeReward), if the ledger
write succeeds and the subsequent balance write fails, the handler exits
through its dedicated partial-failure path (`balanceWriteFailed`, the
source's distinct "manually verify / adjust the balance" throw, mapped to
the spec's PartialFailureError) — not through the generic insert/delete
failure exits — and the state is left as-is: for assignment the ledger row
is present and no client row changed; for revocation the ledger row is
gone and no client row changed. -/
theorem c2_partial_failure_distinct_and_state_kept
    (db : DB) (cid rid notes newId : String) (c : ClientRow) (r : RewardRow)
    (hc : findClient db cid = some c) (hr : findReward db rid = some r)
    (hfresh : db.client_rewards.all (fun e => e.id != newId) = true)
    (db2 : DB) (cid2 eid : String) (bs : Option ℚ) (amt : ℚ) :
    ((assignReward db cid rid notes newId true false).2 = .balanceWriteFailed ∧
      (assignReward db cid rid notes newId true false).1.clients = db.clients ∧
      (assignReward db cid rid notes newId true false).1.client_rewards
        = db.client_rewards ++ [ClientRewardRow.mk newId cid rid
            (if notes.isEmpty then none else some notes)]) ∧
    ((confirmRevokeReward db2 cid2 bs eid amt true false).2 = .balanceWriteFailed ∧
      (confirmRevokeReward db2 cid2 bs eid amt true false).1.clients = db2.clients ∧
      (confirmRevokeReward db2 cid2 bs eid amt true false).1.client_rewards
        = db2.client_rewards.filter (fun e => e.id != eid)) := by
  constructor
  · unfold assignReward
    rw [hc, hr]
    simp [hfresh]
  · unfold confirmRevokeReward
    simp

theorem c2_partial_failure_distinct_and_state_kept_witness :
    ((assignReward dbZero "c1" "r1" "" "e1" true false).2
        = AssignOutcome.balanceWriteFailed ∧
      (assignReward dbZero "c1" "r1" "" "e1" true false).1.clients = dbZero.clients ∧
      (assignReward dbZero "c1" "r1" "" "e1" true false).1.client_rewards
        = dbZero.client_rewards ++ [ClientRewardRow.mk "e1" "c1" "r1"
            (if ("" : String).isEmpty then none else some "")]) ∧
    ((confirmRevokeReward dbAfter "c1" (some 50) "e2" 50 true false).2
        = RevokeOutcome.balanceWriteFailed ∧
      (confirmRevokeReward dbAfter "c1" (some 50) "e2" 50 true false).1.clients
        = dbAfter.clients ∧
      (confirmRevokeReward dbAfter "c1" (some 50) "e2" 50 true false).1.client_rewards
        = dbAfter.client_rewards.filter (fun e => e.id != "e2")) :=
  c2_partial_failure_distinct_and_state_kept dbZero "c1" "r1" "" "e1"
    (ClientRow.mk "c1" "a@b" none none none (some 0))
    (RewardRow.mk "r1" "A" 30)
    (by simp [findClient, dbZero, List.find?])
    (by simp [findReward, dbZero, List.find?])
    (by simp [dbZero])
    dbAfter "c1" "e2" (some 50) 50

/-- C3: for every client balance B ≥ 0 and every reward point value V > 0,
revokeReward writes balance = max(0, B − V) after deleting the ledger
entry; the written balance is never negative, even when V exceeds B. -/
theorem c3_revoke_balance_clamped (db : DB) (cid eid : String) (B V : ℚ)
    (hB : 0 ≤ B) (hV : 0 < V) :
    (confirmRevokeReward db cid (some B) eid V true true).2 = .ok ∧
    (∀ e ∈ (confirmRevokeReward db cid (some B) eid V true true).1.client_rewards,
      e.id ≠ eid) ∧
    (∀ c ∈ (confirmRevokeReward db cid (some B) eid V true true).1.clients,
      c.id = cid → c.pgc_balance = some (max 0 (B - V)) ∧
        0 ≤ (c.pgc_balance.getD 0)) := by
  refine ⟨rfl, ?_, ?_⟩
  · intro e he
    have he2 : e ∈ db.client_rewards.filter (fun x => x.id != eid) := he
    simp only [List.mem_filter] at he2
    exact bne_iff_ne.1 he2.2
  · intro c hc hcid
    have hc2 : c ∈ db.clients.map (fun c0 =>
        if c0.id == cid then
          { c0 with pgc_balance := some (max 0 ((some B).getD 0 - V)) }
        else c0) := hc
    obtain ⟨c0, hc0, rfl⟩ := List.mem_map.1 hc2
    by_cases h0 : (c0.id == cid) = true
    · simp [h0, le_max_left]
    · simp only [h0, if_false, Bool.false_eq_true] at hcid
      exact absurd (beq_iff_eq.2 hcid) h0

theorem c3_revoke_balance_clamped_witness :
    (0 : ℚ) ≤ 10 ∧ (0 : ℚ) < 30 ∧
    ((confirmRevokeReward dbRev "c1" (some 10) "e1" 30 true true).2 = .ok ∧
    (∀ e ∈ (confirmRevokeReward dbRev "c1" (some 10) "e1" 30 true true).1.client_rewards,
      e.id ≠ "e1") ∧
    (∀ c ∈ (confirmRevokeReward dbRev "c1" (some 10) "e1" 30 true true).1.clients,
      c.id = "c1" → c.pgc_balance = some (max 0 ((10 : ℚ) - 30)) ∧
        0 ≤ (c.pgc_balance.getD 0))) :=
  ⟨by norm_num, by norm_num,
    c3_revoke_balance_clamped dbRev "c1" "e1" 10 30 (by norm_num) (by norm_num)⟩

/-- C4 counterexample: revoking a reward whose ledger entry has already
been removed is NOT a balance no-op.  In `dbRev` (balance 10, empty
ledger) a revoke of the stale entry `e1` carrying value 30 succeeds (the
delete matches nothing and reports no error, so no NotFoundError is
raised) and writes balance max(0, 10 − 30) = 0 — the balance does not stay
at 10, contradicting the claim. -/
theorem c4_second_revoke_changes_balance_counterexample :
    (confirmRevokeReward dbRev "c1" (some 10) "e1" 30 true true).2
      = RevokeOutcome.ok ∧
    (confirmRevokeReward dbRev "c1" (some 10) "e1" 30 true true).1.client_rewards
      = dbRev.client_rewards ∧
    (confirmRevokeReward dbRev "c1" (some 10) "e1" 30 true true).1.clients.map
      (fun c => c.pgc_balance) = [some 0] ∧
    dbRev.clients.map (fun c => c.pgc_balance) = [some 10] ∧
    some (0 : ℚ) ≠ some (10 : ℚ) := by
  refine ⟨rfl, rfl, ?_, rfl, by norm_num⟩
  simp [confirmRevokeReward, updateClientBalance, dbRev]
  norm_num [max_def]

/-- C4 as amended: revoking a reward whose ledger entry has already been
removed does not fail with NotFoundError and is not a no-op on the
balance: the delete matches no row (the ledger is unchanged) and the
handler still writes balance = max(0, B − V) from its stale snapshot, so
the stored balance is decremented again (clamped at zero) whenever
B − V differs from B. -/
theorem c4_second_revoke_amended (db : DB) (cid eid : String) (B V : ℚ)
    (habsent : ∀ e ∈ db.client_rewards, e.id ≠ eid) :
    (confirmRevokeReward db cid (some B) eid V true true).2 = .ok ∧
    (confirmRevokeReward db cid (some B) eid V true true).1.client_rewards
      = db.client_rewards ∧
    (confirmRevokeReward db cid (some B) eid V true true).1.clients
      = db.clients.map (fun c =>
          if c.id == cid then { c with pgc_balance := some (max 0 (B - V)) }
          else c) := by
  refine ⟨rfl, ?_, rfl⟩
  show db.client_rewards.filter (fun x => x.id != eid) = db.client_rewards
  exact List.filter_eq_self.2 (fun e he => bne_iff_ne.2 (habsent e he))

theorem c4_second_revoke_amended_witness :
    (confirmRevokeReward dbRev "c1" (some 10) "e1" 30 true true).2
      = RevokeOutcome.ok ∧
    (confirmRevokeReward dbRev "c1" (some 10) "e1" 30 true true).1.client_rewards
      = dbRev.client_rewards ∧
    (confirmRevokeReward dbRev "c1" (some 10) "e1" 30 true true).1.clients
      = dbRev.clients.map (fun c =>
          if c.id == "c1" then { c with pgc_balance := some (max 0 ((10 : ℚ) - 30)) }
          else c) :=
  c4_second_revoke_amended dbRev "c1" "e1" 10 30 (by simp [dbRev])

/-- C5 counterexample: with two images where the second upload fails, the
handler aborts before creating the entry, but the first uploaded image is
NOT deleted — it remains in storage (path "u1/f1"), contradicting the
claimed compensating cleanup of every already-uploaded image.  (The
cleanup in the source runs only when the entry insert fails, not when an
upload fails.) -/
theorem c5_upload_failure_keeps_orphan_counterexample :
    submitMitigation dbE "u1" "5" ["f1", "f2"] (fun i => i == 0) true true "m1"
      = ({ dbE with storage := ["u1/f1"] }, SubmitOutcome.uploadFailed) ∧
    ({ dbE with storage := ["u1/f1"] } : DB).storage ≠ [] := by
  constructor
  · simp [submitMitigation, uploadLoop, parseFloat, parseFloatCore, digitsToNat,
      List.dropWhile, List.takeWhile, JSNum.leZero, dbE, publicUrl,
      string_five_not_empty]
  · simp

/-- C5 as amended: when the kg validation passes and some image upload in
the loop fails, the call fails with the upload error and creates no
MitigationEntry and no EvidenceImage rows, but the images uploaded before
the failing one are NOT deleted: the starting storage (and whatever the
loop added) is left in place — only an entry-insert failure triggers the
compensating cleanup. -/
theorem c5_upload_failure_amended (db : DB) (uid kgStr : String)
    (files : List String) (upOk : Nat → Bool) (newEntryId : String)
    (hval : (kgStr.isEmpty || (parseFloat kgStr).leZero) = false)
    (hfail : (uploadLoop db uid files upOk 0).2 = none) :
    submitMitigation db uid kgStr files upOk true true newEntryId
      = ((uploadLoop db uid files upOk 0).1, SubmitOutcome.uploadFailed) ∧
    (uploadLoop db uid files upOk 0).1.mitigation_entries = db.mitigation_entries ∧
    (uploadLoop db uid files upOk 0).1.mitigation_images = db.mitigation_images ∧
    List.IsPrefix db.storage (uploadLoop db uid files upOk 0).1.storage := by
  obtain ⟨h1, h2, h3, h4, h5, h6⟩ := uploadLoop_fields uid files upOk db 0
  refine ⟨?_, h4, h5, h6⟩
  unfold submitMitigation
  rw [hval]
  rcases hu : uploadLoop db uid files upOk 0 with ⟨db1, r⟩
  rw [hu] at hfail
  simp only at hfail
  subst hfail
  simp

theorem c5_upload_failure_amended_witness :
    (("5" : String).isEmpty || (parseFloat "5").leZero) = false ∧
    (uploadLoop dbE "u1" ["f1", "f2"] (fun i => i == 0) 0).2 = none ∧
    (submitMitigation dbE "u1" "5" ["f1", "f2"] (fun i => i == 0) true true "m1"
      = ((uploadLoop dbE "u1" ["f1", "f2"] (fun i => i == 0) 0).1,
          SubmitOutcome.uploadFailed) ∧
    (uploadLoop dbE "u1" ["f1", "f2"] (fun i => i == 0) 0).1.mitigation_entries
      = dbE.mitigation_entries ∧
    (uploadLoop dbE "u1" ["f1", "f2"] (fun i => i == 0) 0).1.mitigation_images
      = dbE.mitigation_images ∧
    List.IsPrefix dbE.storage
      (uploadLoop dbE "u1" ["f1", "f2"] (fun i => i == 0) 0).1.storage) := by
  have hval : (("5" : String).isEmpty || (parseFloat "5").leZero) = false := by
    simp [parseFloat, parseFloatCore, digitsToNat, List.dropWhile, List.takeWhile,
      JSNum.leZero, string_five_not_empty]
  have hfail : (uploadLoop dbE "u1" ["f1", "f2"] (fun i => i == 0) 0).2 = none := by
    simp [uploadLoop, dbE]
  exact ⟨hval, hfail,
    c5_upload_failure_amended dbE "u1" "5" ["f1", "f2"] (fun i => i == 0) "m1"
      hval hfail⟩

/-- C6: a submitMitigation call whose kg input parses to a non-positive
number fails at the validation guard before performing any external
write: the state (storage, entries, image rows) is returned exactly as it
was and the outcome is the validation failure. -/
theorem c6_nonpositive_kg_rejected_before_writes (db : DB) (uid kgStr : String)
    (files : List String) (upOk : Nat → Bool) (entryOk imagesOk : Bool)
    (newEntryId : String) (q : ℚ)
    (hq : parseFloat kgStr = JSNum.num q) (h0 : q ≤ 0) :
    submitMitigation db uid kgStr files upOk entryOk imagesOk newEntryId
      = (db, SubmitOutcome.validationFailed) := by
  have hle : (JSNum.num q).leZero = true := by simp [JSNum.leZero, h0]
  unfold submitMitigation
  simp [hq, hle]

theorem c6_nonpositive_kg_rejected_before_writes_witness :
    parseFloat "0" = JSNum.num 0 ∧ (0 : ℚ) ≤ 0 ∧
    submitMitigation dbE "u1" "0" [] (fun _ => true) true true "m1"
      = (dbE, SubmitOutcome.validationFailed) := by
  have hq : parseFloat "0" = JSNum.num 0 := by
    simp [parseFloat, parseFloatCore, digitsToNat, List.dropWhile, List.takeWhile]
  exact ⟨hq, le_refl 0,
    c6_nonpositive_kg_rejected_before_writes dbE "u1" "0" [] (fun _ => true)
      true true "m1" 0 hq (le_refl 0)⟩

/-- C7: a successful assignReward reads the client's balance snapshot B
and the reward's value V (both from the page-load fetch, before any
write), inserts exactly one ledger row linking client and reward, and then
writes balance = B + V to every client row with that id — the balance
increases by exactly V over the read snapshot. -/
theorem c7_assign_inserts_then_adds_value (db : DB)
    (cid rid notes newId : String) (c : ClientRow) (r : RewardRow)
    (hc : findClient db cid = some c) (hr : findReward db rid = some r)
    (hfresh : db.client_rewards.all (fun e => e.id != newId) = true) :
    (assignReward db cid rid notes newId true true).2 = .ok ∧
    (assignReward db cid rid notes newId true true).1.client_rewards
      = db.client_rewards ++ [ClientRewardRow.mk newId cid rid
          (if notes.isEmpty then none else some notes)] ∧
    (∀ c0 ∈ (assignReward db cid rid notes newId true true).1.clients,
      c0.id = cid →
        c0.pgc_balance = some (c.pgc_balance.getD 0 + r.pgc_amount)) := by
  unfold assignReward
  rw [hc, hr]
  simp only [hfresh, Bool.and_true, if_true]
  refine ⟨by trivial, by trivial, ?_⟩
  intro c0 hc0 hc0id
  have hc2 : c0 ∈ db.clients.map (fun x =>
      if x.id == cid then
        { x with pgc_balance := some (c.pgc_balance.getD 0 + r.pgc_amount) }
      else x) := hc0
  obtain ⟨c1, hc1, rfl⟩ := List.mem_map.1 hc2
  by_cases h0 : (c1.id == cid) = true
  · simp [h0]
  · simp only [h0, if_false, Bool.false_eq_true] at hc0id
    exact absurd (beq_iff_eq.2 hc0id) h0

theorem c7_assign_inserts_then_adds_value_witness :
    (assignReward dbZero "c1" "r1" "" "e1" true true).2 = AssignOutcome.ok ∧
    (assignReward dbZero "c1" "r1" "" "e1" true true).1.client_rewards
      = dbZero.client_rewards ++ [ClientRewardRow.mk "e1" "c1" "r1"
          (if ("" : String).isEmpty then none else some "")] ∧
    (∀ c0 ∈ (assignReward dbZero "c1" "r1" "" "e1" true true).1.clients,
      c0.id = "c1" →
        c0.pgc_balance = some ((ClientRow.mk "c1" "a@b" none none none
          (some 0)).pgc_balance.getD 0 + (RewardRow.mk "r1" "A" 30).pgc_amount)) :=
  c7_assign_inserts_then_adds_value dbZero "c1" "r1" "" "e1"
    (ClientRow.mk "c1" "a@b" none none none (some 0))
    (RewardRow.mk "r1" "A" 30)
    (by simp [findClient, dbZero, List.find?])
    (by simp [findReward, dbZero, List.find?])
    (by simp [dbZero])

/-- C8 counterexample: `handleUpdateProfile` is an upsert keyed on id, so
calling it with an id that does not correspond to an existing Client does
not fail with a validation error — it succeeds and INSERTS a new Client
row.  In `dbZero` (whose only client is "c1") an update for the
non-existent id "u9" returns ok and grows the clients table by one row. -/
theorem c8_update_profile_missing_id_counterexample :
    (handleUpdateProfile dbZero "u9" "x@y" "N" "s" "b" true).2
      = ProfileOutcome.ok ∧
    (handleUpdateProfile dbZero "u9" "x@y" "N" "s" "b" true).1.clients.length
      = dbZero.clients.length + 1 := by
  constructor
  · simp [handleUpdateProfile, dbZero]
  · simp [handleUpdateProfile, dbZero, freshProfileRow]

/-- C8 as amended: `handleUpdateProfile` upserts on id.  For an existing
Client (with the in-session email snapshot matching the stored email, as
the sequential flow guarantees) it overwrites only the display name, the
two wallets and the snapshot email, leaving id, email and point balance at
their stored values and creating no record; for a non-existent id it does
not fail but inserts a fresh Client row with those fields and the schema
default balance. -/
theorem c8_update_profile_upsert (db : DB) (uid emailSnap fn sw bw : String) :
    (db.clients.any (fun c => c.id == uid) = true →
      (∀ c ∈ db.clients, c.id = uid → c.email = emailSnap) →
      (handleUpdateProfile db uid emailSnap fn sw bw true).2 = .ok ∧
      (handleUpdateProfile db uid emailSnap fn sw bw true).1.clients.length
        = db.clients.length ∧
      List.Forall₂ (fun old new : ClientRow =>
          new.id = old.id ∧ new.email = old.email ∧
          new.pgc_balance = old.pgc_balance ∧
          (old.id ≠ uid → new = old) ∧
          (old.id = uid → new.full_name = some fn ∧
            new.solana_wallet = some sw ∧ new.bnb_wallet = some bw))
        db.clients (handleUpdateProfile db uid emailSnap fn sw bw true).1.clients) ∧
    (db.clients.any (fun c => c.id == uid) = false →
      (handleUpdateProfile db uid emailSnap fn sw bw true).2 = .ok ∧
      (handleUpdateProfile db uid emailSnap fn sw bw true).1.clients
        = db.clients ++ [freshProfileRow uid emailSnap fn sw bw]) := by
  constructor
  · intro hany hsnap
    unfold handleUpdateProfile
    simp only [hany, if_true]
    refine ⟨by trivial, by simp, ?_⟩
    rw [List.forall₂_map_right_iff]
    rw [List.forall₂_same]
    intro x hx
    by_cases h0 : (x.id == uid) = true
    · have hxid : x.id = uid := eq_of_beq h0
      simp [h0, hxid, applyProfileColumns, hsnap x hx hxid]
    · have hxid : x.id ≠ uid := fun hh => h0 (beq_iff_eq.2 hh)
      simp [h0, hxid]
  · intro hany
    unfold handleUpdateProfile
    simp [hany]

theorem c8_update_profile_upsert_witness :
    ((handleUpdateProfile dbZero "c1" "a@b" "N" "s" "b" true).2
        = ProfileOutcome.ok ∧
      (handleUpdateProfile dbZero "c1" "a@b" "N" "s" "b" true).1.clients.length
        = dbZero.clients.length ∧
      List.Forall₂ (fun old new : ClientRow =>
          new.id = old.id ∧ new.email = old.email ∧
          new.pgc_balance = old.pgc_balance ∧
          (old.id ≠ "c1" → new = old) ∧
          (old.id = "c1" → new.full_name = some "N" ∧
            new.solana_wallet = some "s" ∧ new.bnb_wallet = some "b"))
        dbZero.clients
        (handleUpdateProfile dbZero "c1" "a@b" "N" "s" "b" true).1.clients) ∧
    ((handleUpdateProfile dbZero "u9" "x@y" "N" "s" "b" true).2
        = ProfileOutcome.ok ∧
      (handleUpdateProfile dbZero "u9" "x@y" "N" "s" "b" true).1.clients
        = dbZero.clients ++ [freshProfileRow "u9" "x@y" "N" "s" "b"]) := by
  constructor
  · exact (c8_update_profile_upsert dbZero "c1" "a@b" "N" "s" "b").1
      (by simp [dbZero]) (by simp [dbZero])
  · exact (c8_update_profile_upsert dbZero "u9" "x@y" "N" "s" "b").2
      (by simp [dbZero])

/-- C9: deleting a RewardDefinition referenced by at least one
RewardLedgerEntry fails with the conflict error (the restrict foreign key
rejects the delete) and removes neither the definition nor any ledger
entry — the state is returned untouched and ledger rows are never removed
by this operation (no cascade); deleting a definition referenced by zero
ledger entries succeeds and removes exactly the rows with that id. -/
theorem c9_delete_reward_restrict (db : DB) (rid : String) :
    (confirmDeleteReward db rid).1.client_rewards = db.client_rewards ∧
    ((∃ e ∈ db.client_rewards, e.reward_id = rid) →
      confirmDeleteReward db rid = (db, DeleteRewardOutcome.conflictError)) ∧
    ((∀ e ∈ db.client_rewards, e.reward_id ≠ rid) →
      (confirmDeleteReward db rid).2 = DeleteRewardOutcome.ok ∧
      (∀ r0 ∈ (confirmDeleteReward db rid).1.rewards, r0.id ≠ rid) ∧
      (∀ r0 ∈ db.rewards, r0.id ≠ rid →
        r0 ∈ (confirmDeleteReward db rid).1.rewards)) := by
  refine ⟨?_, ?_, ?_⟩
  · unfold confirmDeleteReward
    by_cases h : db.client_rewards.any (fun e => e.reward_id == rid) = true
    · simp [h]
    · simp [h]
  · intro hex
    have hany : db.client_rewards.any (fun e => e.reward_id == rid) = true := by
      obtain ⟨e, he, heq⟩ := hex
      exact List.any_eq_true.2 ⟨e, he, beq_iff_eq.2 heq⟩
    unfold confirmDeleteReward
    simp [hany]
  · intro hall
    have hany : db.client_rewards.any (fun e => e.reward_id == rid) = false := by
      rw [Bool.eq_false_iff]
      intro hc
      obtain ⟨e, he, heq⟩ := List.any_eq_true.1 hc
      exact hall e he (eq_of_beq heq)
    unfold confirmDeleteReward
    simp only [hany, Bool.false_eq_true, if_false]
    refine ⟨by trivial, ?_, ?_⟩
    · intro r0 hr0
      have hr2 : r0 ∈ db.rewards.filter (fun r1 => r1.id != rid) := hr0
      simp only [List.mem_filter] at hr2
      exact bne_iff_ne.1 hr2.2
    · intro r0 hr0 hne
      exact List.mem_filter.2 ⟨hr0, bne_iff_ne.2 hne⟩

theorem c9_delete_reward_restrict_witness :
    ((confirmDeleteReward dbAfter "r2").1.client_rewards
        = dbAfter.client_rewards ∧
      confirmDeleteReward dbAfter "r2" = (dbAfter, DeleteRewardOutcome.conflictError)) ∧
    ((confirmDeleteReward dbAfter "r1").2 = DeleteRewardOutcome.ok ∧
      (∀ r0 ∈ (confirmDeleteReward dbAfter "r1").1.rewards, r0.id ≠ "r1") ∧
      (∀ r0 ∈ dbAfter.rewards, r0.id ≠ "r1" →
        r0 ∈ (confirmDeleteReward dbAfter "r1").1.rewards)) := by
  constructor
  · exact ⟨(c9_delete_reward_restrict dbAfter "r2").1,
      (c9_delete_reward_restrict dbAfter "r2").2.1
        ⟨ClientRewardRow.mk "e2" "c1" "r2" none, by simp [dbAfter], rfl⟩⟩
  · exact (c9_delete_reward_restrict dbAfter "r1").2.2 (by simp [dbAfter])

/-- C10: there is a non-empty, non-numeric kg input — "abc", whose numeric
parse is NaN — that the positivity guard does not reject: `NaN <= 0` is
false in JavaScript, so the submission proceeds past validation and
inserts a MitigationEntry whose amount is NaN, which is not a positive
number. -/
theorem c10_nan_passes_validation_guard :
    ("abc" : String) ≠ "" ∧
    parseFloat "abc" = JSNum.nan ∧
    (JSNum.nan.leZero = false ∧ JSNum.nan.isPos = false) ∧
    (submitMitigation dbE "u1" "abc" [] (fun _ => true) true true "m1").2
      = SubmitOutcome.ok ∧
    (submitMitigation dbE "u1" "abc" [] (fun _ => true) true true "m1").1.mitigation_entries
      = [MitigationRow.mk "m1" "u1" JSNum.nan] ∧
    (∀ m ∈ (submitMitigation dbE "u1" "abc" [] (fun _ => true)
        true true "m1").1.mitigation_entries, m.mitigated_plastic_kg.isPos = false) := by
  have hnan : parseFloat "abc" = JSNum.nan := rfl
  have hrun : submitMitigation dbE "u1" "abc" [] (fun _ => true) true true "m1"
      = ({ dbE with mitigation_entries := [MitigationRow.mk "m1" "u1" JSNum.nan] },
          SubmitOutcome.ok) := by
    simp [submitMitigation, uploadLoop, hnan, JSNum.leZero, dbE,
      string_abc_not_empty]
  refine ⟨by simp, hnan, ⟨rfl, rfl⟩, ?_, ?_, ?_⟩
  · rw [hrun]
  · rw [hrun]
  · rw [hrun]
    intro m hm
    simp only [List.mem_singleton] at hm
    subst hm
    rfl
